import Mathlib

/-!
Verification of the log-parsing and anomaly-scoring pipeline of
`src/app.py` (function `analyze_logs`).

The pipeline is embedded shallowly:

* strings are `List Char`; `str.strip` / `str.split(" ", 3)` are modelled
  character by character (Python splits on the single space character with
  at most 3 splits, keeping empty segments);
* `pandas.DataFrame` columns become lists; a missing value (`NaN` produced by
  `Series.map` on an unmapped key) is `Option.none`;
* `sklearn.preprocessing.StandardScaler.fit_transform` is modelled exactly:
  it rejects an empty matrix (zero samples), computes per-column mean and
  population variance over the non-missing entries (NaNs are disregarded in
  fit and maintained in transform), and replaces a zero scale by 1
  (`_handle_zeros_in_scale`), so constant columns are mapped to 0;
* the square root used for the standard deviation, `pandas.to_datetime`, and
  the fitted `IsolationForest`'s `decision_function` are floating-point /
  library computations outside this repository; they are abstracted as an
  explicit `Oracle` parameter: a deterministic bundle of functions.  All
  theorems hold for every oracle;
* `IsolationForest(...).fit` rejects a matrix containing NaN
  (`check_array` with `force_all_finite`), modelled by the `toFinite` guard;
* machine reals become `ℚ` (the claims under study are about control flow,
  shapes, ordering and exact comparisons, not float rounding).
-/

/-! ## Python string primitives -/

/-- Python whitespace (ASCII part), as used by `str.strip` and `str.split()`. -/
def isPyWs (c : Char) : Bool :=
  c = ' ' ∨ c = '\t' ∨ c = '\n' ∨ c = '\r' ∨ c = '\x0b' ∨ c = '\x0c'

/-- Drop leading Python whitespace (`str.lstrip`). -/
def trimLeft (s : List Char) : List Char :=
  s.dropWhile isPyWs

/-- Drop trailing Python whitespace (`str.rstrip`). -/
def trimRight (s : List Char) : List Char :=
  (s.reverse.dropWhile isPyWs).reverse

/-- Python `str.strip()`: drop whitespace at both ends. -/
def pyStrip (s : List Char) : List Char :=
  trimLeft (trimRight s)

/-- Split off everything before the first occurrence of `sep`, together with
the remainder after it; `none` when `sep` does not occur. -/
def splitOnce (sep : Char) : List Char → Option (List Char × List Char)
  | [] => none
  | c :: cs =>
    if c = sep then some ([], cs)
    else (splitOnce sep cs).map (fun p => (c :: p.1, p.2))

/-- Python `str.split(sep, maxsplit)` for a one-character separator: at most
`n` splits, empty segments kept, remainder returned whole. -/
def pySplit (sep : Char) : Nat → List Char → List (List Char)
  | 0, s => [s]
  | n + 1, s =>
    match splitOnce sep s with
    | none => [s]
    | some (a, b) => a :: pySplit sep n b

/-- Python `str.split()` with no argument: split on runs of whitespace,
dropping empty segments.  This is the reading of the specification's
"whitespace-separated segments/tokens"; it is compared against the code's
`split(" ", 3)` behaviour. -/
def wsTokens : List Char → List (List Char)
  | [] => []
  | c :: t =>
    if isPyWs c then wsTokens t
    else
      match wsTokens t with
      | [] => [[c]]
      | u :: us => if isPyWs (t.headD ' ') then [c] :: u :: us else (c :: u) :: us

/-! ## Log parser (src/app.py lines 34-42) -/

/-- One parsed log line: `timestamp = parts[0] + " " + parts[1]`,
`level = parts[2]`, `message = parts[3]`. -/
structure LogRecord where
  timestamp : List Char
  level : List Char
  message : List Char
deriving DecidableEq

/-- `parts = log.strip().split(" ", 3); if len(parts) < 4: continue`. -/
def parseLine (log : List Char) : Option LogRecord :=
  let parts := pySplit ' ' 3 (pyStrip log)
  if parts.length < 4 then none
  else some ⟨parts.getD 0 [] ++ ' ' :: parts.getD 1 [], parts.getD 2 [], parts.getD 3 []⟩

/-- The parsing loop: valid lines are kept in order, the rest are skipped. -/
def parseLogs (lines : List (List Char)) : List LogRecord :=
  lines.filterMap parseLine

/-! ## Feature extraction (src/app.py lines 47-60) -/

/-- `level_mapping = {"INFO": 1, "WARNING": 2, "ERROR": 3, "CRITICAL": 4}`. -/
def level_mapping : List (List Char × ℚ) :=
  [("INFO".toList, 1), ("WARNING".toList, 2), ("ERROR".toList, 3), ("CRITICAL".toList, 4)]

/-- `df["level"].map(level_mapping)`: an unmapped level becomes NaN (`none`). -/
def levelScore (lv : List Char) : Option ℚ :=
  level_mapping.lookup lv

/-- ASCII case folding used to model `case=False` matching. -/
def lowerList (s : List Char) : List Char :=
  s.map Char.toLower

/-- Substring test (`needle` occurs contiguously in `hay`). -/
def containsSub (needle : List Char) : List Char → Bool
  | [] => needle.isEmpty
  | c :: t => needle.isPrefixOf (c :: t) || containsSub needle t

/-- `Series.str.contains(kw, case=False)`: the keywords contain no regex
metacharacters, so this is a case-insensitive substring test. -/
def strContainsCI (pat s : List Char) : Bool :=
  containsSub (lowerList pat) (lowerList s)

/-- `keywords = ['error', 'fail', 'timeout']`. -/
def keywords : List (List Char) :=
  ["error".toList, "fail".toList, "timeout".toList]

/-- The feature columns of one record, in the order
`['level_score', 'message_length', 'contains_error', 'contains_fail',
'contains_timeout']`. -/
def featureRow (r : LogRecord) : List (Option ℚ) :=
  [levelScore r.level, some ((r.message.length : ℚ))] ++
    keywords.map (fun kw => some (if strContainsCI kw r.message then 1 else 0))

/-! ## StandardScaler (src/app.py lines 63-64) -/

/-- The defined (non-NaN) entries of one column. -/
def someVals (col : List (Option ℚ)) : List ℚ :=
  col.filterMap id

/-- Column mean over the non-missing entries (`numpy.nanmean`). -/
def nanmean (col : List (Option ℚ)) : ℚ :=
  (someVals col).sum / ((someVals col).length : ℚ)

/-- Column population variance over the non-missing entries (`numpy.nanvar`,
`ddof = 0` as used by `StandardScaler`). -/
def nanvar (col : List (Option ℚ)) : ℚ :=
  ((someVals col).map (fun x => (x - nanmean col) ^ 2)).sum / ((someVals col).length : ℚ)

/-- `scale_ = _handle_zeros_in_scale(sqrt(var_))`: a zero-variance column gets
scale 1 instead of 0, so the scaler never divides by zero. -/
def scaleOf (sq : ℚ → ℚ) (var : ℚ) : ℚ :=
  if var = 0 then 1 else sq var

/-- Column `j` of the feature matrix. -/
def getCol (X : List (List (Option ℚ))) (j : ℕ) : List (Option ℚ) :=
  X.map (fun row => row.getD j none)

/-- Transform one row: each defined entry is replaced by its standard score
`(x - mean) / scale`; missing entries are maintained. -/
def transformRow (sq : ℚ → ℚ) (X : List (List (Option ℚ))) (w : ℕ)
    (row : List (Option ℚ)) : List (Option ℚ) :=
  (List.range w).map (fun j =>
    (row.getD j none).map (fun x =>
      (x - nanmean (getCol X j)) / scaleOf sq (nanvar (getCol X j))))

/-- Error taxonomy of one analysis run. -/
inductive AnalyzeError where
  /-- `pd.to_datetime` failed on some timestamp (src/app.py line 45). -/
  | parseError : AnalyzeError
  /-- the scaler received zero samples (sklearn `check_array`, line 64). -/
  | emptyInput : AnalyzeError
  /-- the model received a matrix containing NaN (sklearn `check_array`, line 68). -/
  | nanInput : AnalyzeError
deriving DecidableEq

/-- `scaler.fit_transform(df[feature_cols])`: rejects an empty matrix
(zero samples), otherwise standard-scores every column (NaN entries are
disregarded when fitting and maintained in the output). -/
def fitTransform (sq : ℚ → ℚ) (X : List (List (Option ℚ))) :
    Except AnalyzeError (List (List (Option ℚ))) :=
  if X.isEmpty then .error .emptyInput
  else .ok (X.map (transformRow sq X (X.headD []).length))

/-! ## Isolation forest and thresholding (src/app.py lines 66-75) -/

/-- Hyperparameters of `IsolationForest(contamination=0.05, n_estimators=150,
random_state=42)`. -/
structure IFParams where
  n_estimators : ℕ
  contamination : ℚ
  random_state : Option ℕ
deriving DecidableEq

/-- The hyperparameters the code constructs the model with (line 67). -/
def modelParams : IFParams :=
  ⟨150, 5 / 100, some 42⟩

/-- Deterministic bundle of the library computations the pipeline calls out
to.  `toDatetime` models `pandas.to_datetime` (`none` = unparseable),
`sqrtFn` models the square root inside the scaler, and `fit` models fitting
an isolation forest: given the effective seed, `n_estimators`,
`contamination` and the training matrix, it returns the fitted model's
`decision_function`, applied row by row. -/
structure Oracle where
  toDatetime : List Char → Option ℕ
  sqrtFn : ℚ → ℚ
  fit : ℕ → ℕ → ℚ → List (List ℚ) → List ℚ → ℚ

instance {ε α : Type} [DecidableEq ε] [DecidableEq α] : DecidableEq (Except ε α) := fun x y =>
  match x, y with
  | .ok a, .ok b =>
    if h : a = b then .isTrue (by rw [h]) else .isFalse (fun hc => by cases hc; exact h rfl)
  | .error a, .error b =>
    if h : a = b then .isTrue (by rw [h]) else .isFalse (fun hc => by cases hc; exact h rfl)
  | .ok _, .error _ => .isFalse (fun hc => by cases hc)
  | .error _, .ok _ => .isFalse (fun hc => by cases hc)

/-- Collapse a list of optional values: `none` exactly when some entry is
missing.  Models a whole-column/whole-matrix validity check. -/
def allSome : List (Option α) → Option (List α)
  | [] => some []
  | none :: _ => none
  | some a :: t => (allSome t).map (a :: ·)

/-- `check_array` of the model fit: the matrix must be NaN-free. -/
def toFinite (X : List (List (Option ℚ))) : Option (List (List ℚ)) :=
  allSome (X.map allSome)

/-- Insert into a sorted list (ascending). -/
def insSorted (x : ℚ) : List ℚ → List ℚ
  | [] => [x]
  | y :: t => if x ≤ y then x :: y :: t else y :: insSorted x t

/-- Insertion sort, ascending. -/
def sortQ (l : List ℚ) : List ℚ :=
  l.foldr insSorted []

/-- `Series.quantile(q)` with the default linear interpolation: with the
values sorted ascending and `h = q * (n - 1)`, the result is
`s[⌊h⌋] + (h - ⌊h⌋) * (s[⌊h⌋ + 1] - s[⌊h⌋])`. -/
def quantileLinear (q : ℚ) (xs : List ℚ) : ℚ :=
  let s := sortQ xs
  let h : ℚ := q * (((s.length : ℚ)) - 1)
  let i : ℕ := ⌊h⌋.toNat
  let lo := s.getD i 0
  let hi := s.getD (i + 1) lo
  lo + (h - (i : ℚ)) * (hi - lo)

/-- Final output unit: the record, its decision-function score, and the
batch-relative classification. -/
structure ScoredRecord where
  base : LogRecord
  score : ℚ
  isAnomaly : Bool
deriving DecidableEq

/-- Lines 74-75: `threshold = df['score'].quantile(0.05)` and
`is_anomaly = (x < threshold)` (strictly below is anomalous, ties are
normal). -/
def classifyScores (recs : List LogRecord) (scores : List ℚ) : List ScoredRecord :=
  let threshold := quantileLinear (5 / 100) scores
  List.zipWith (fun r s => ⟨r, s, decide (s < threshold)⟩) recs scores

/-- The scoring stage of `analyze_logs`, after parsing: convert timestamps
(`pd.to_datetime` aborts the run if any fails), build the feature matrix,
scale it, fit the isolation forest on the scaled matrix (which rejects NaN),
score every row with the fitted model's decision function, and classify
against the 5% quantile threshold. -/
def scoreRecords (O : Oracle) (entropy : ℕ) (recs : List LogRecord) :
    Except AnalyzeError (List ScoredRecord) :=
  match allSome (recs.map (fun r => O.toDatetime r.timestamp)) with
  | none => .error .parseError
  | some _ =>
    match fitTransform O.sqrtFn (recs.map featureRow) with
    | .error e => .error e
    | .ok X1 =>
      match toFinite X1 with
      | none => .error .nanInput
      | some X2 =>
        let g := O.fit (modelParams.random_state.getD entropy)
          modelParams.n_estimators modelParams.contamination X2
        .ok (classifyScores recs (X2.map g))

/-- The whole pipeline of `analyze_logs` on an input batch of raw lines.
`entropy` stands for the ambient randomness of a run; it is only consulted
when `random_state` is `none`, which the code never does. -/
def analyze_logs (O : Oracle) (entropy : ℕ) (lines : List (List Char)) :
    Except AnalyzeError (List ScoredRecord) :=
  scoreRecords O entropy (parseLogs lines)

/-! ## Concrete instances used by the witnesses -/

/-- A concrete oracle for evaluating the pipeline on sample inputs. -/
def oracle0 : Oracle :=
  ⟨fun _ => some 0, fun q => q, fun _ _ _ _ row => row.sum⟩

/-- A sample record (from the bundled sample logs). -/
def rec0 : LogRecord :=
  ⟨"2024-09-10 10:15:23".toList, "INFO".toList, "Application started successfully".toList⟩

/-- Constructs the raw line `"<date> <time> <LEVEL> <message>"`. -/
def mkLine (d t l m : List Char) : List Char :=
  d ++ ' ' :: (t ++ ' ' :: (l ++ ' ' :: m))

/-! ## Helper lemmas -/

theorem allSome_eq_none {α : Type} {l : List (Option α)} (h : none ∈ l) :
    allSome l = none := by
  induction l with
  | nil => cases h
  | cons x t ih =>
    cases x with
    | none => rfl
    | some a =>
      rcases List.mem_cons.mp h with h1 | h1
      · exact absurd h1 (by simp)
      · simp [allSome, ih h1]

theorem allSome_length {α : Type} :
    ∀ {l : List (Option α)} {m : List α}, allSome l = some m → m.length = l.length := by
  intro l
  induction l with
  | nil => intro m h; simp [allSome] at h; subst h; rfl
  | cons x t ih =>
    intro m h
    cases x with
    | none => simp [allSome] at h
    | some a =>
      simp only [allSome, Option.map_eq_some'] at h
      obtain ⟨m2, hm2, rfl⟩ := h
      simp [ih hm2]

theorem allSome_isSome {α : Type} {l : List (Option α)} (h : ∀ x ∈ l, x.isSome) :
    ∃ m, allSome l = some m ∧ m.length = l.length := by
  induction l with
  | nil => exact ⟨[], rfl, rfl⟩
  | cons x t ih =>
    obtain ⟨a, rfl⟩ := Option.isSome_iff_exists.mp (h x (by simp))
    obtain ⟨m, hm, hlen⟩ := ih (fun y hy => h y (by simp [hy]))
    exact ⟨a :: m, by simp [allSome, hm], by simp [hlen]⟩

theorem getD_range_map {α : Type} (f : ℕ → α) (w j : ℕ) (hj : j < w) (d : α) :
    ((List.range w).map f).getD j d = f j := by
  rw [List.getD_eq_getElem?_getD, List.getElem?_map, List.getElem?_range hj]
  rfl

theorem featureRow_length (r : LogRecord) : (featureRow r).length = 5 := rfl

theorem featureRow_getD_zero (r : LogRecord) :
    (featureRow r).getD 0 none = levelScore r.level := rfl

theorem featureRow_getD_isSome (r : LogRecord) (h : (levelScore r.level).isSome)
    (j : ℕ) (hj : j < 5) : ((featureRow r).getD j none).isSome := by
  interval_cases j
  · simpa [featureRow] using h
  · simp [featureRow]
  · simp [featureRow, keywords]
  · simp [featureRow, keywords]
  · simp [featureRow, keywords]

theorem zipWith_snd {α β : Type} :
    ∀ (as : List α) (bs : List β), bs.length ≤ as.length →
      List.zipWith (fun _ b => b) as bs = bs := by
  intro as
  induction as with
  | nil =>
    intro bs h
    have hb : bs = [] := List.eq_nil_of_length_eq_zero (Nat.le_zero.mp h)
    subst hb; rfl
  | cons a t ih =>
    intro bs h
    cases bs with
    | nil => rfl
    | cons b bt => simpa using ih bt (by simpa using h)

theorem classifyScores_length (recs : List LogRecord) (scores : List ℚ)
    (h : scores.length = recs.length) :
    (classifyScores recs scores).length = recs.length := by
  simp [classifyScores, h]

theorem classifyScores_map_score (recs : List LogRecord) (scores : List ℚ)
    (h : scores.length ≤ recs.length) :
    (classifyScores recs scores).map ScoredRecord.score = scores := by
  unfold classifyScores
  rw [List.map_zipWith]
  exact zipWith_snd recs scores h

theorem fitTransform_ok (sq : ℚ → ℚ) (X : List (List (Option ℚ))) (h : X ≠ []) :
    fitTransform sq X = .ok (X.map (transformRow sq X (X.headD []).length)) := by
  unfold fitTransform
  rw [if_neg]
  simp [List.isEmpty_iff, h]

theorem fitTransform_length {sq : ℚ → ℚ} {X Y : List (List (Option ℚ))}
    (h : fitTransform sq X = .ok Y) : Y.length = X.length := by
  unfold fitTransform at h
  split at h
  · exact absurd h (by simp)
  · simp only [Except.ok.injEq] at h
    subst h
    simp

theorem scoreRecords_ok_shape {O : Oracle} {e : ℕ} {recs : List LogRecord}
    {out : List ScoredRecord} (h : scoreRecords O e recs = .ok out) :
    ∃ scores : List ℚ, scores.length = recs.length ∧ out = classifyScores recs scores := by
  unfold scoreRecords at h
  split at h
  · exact absurd h (by simp)
  · split at h
    · exact absurd h (by simp)
    · rename_i X1 hX1
      split at h
      · exact absurd h (by simp)
      · rename_i X2 hX2
        simp only [Except.ok.injEq] at h
        refine ⟨X2.map (O.fit (modelParams.random_state.getD e)
          modelParams.n_estimators modelParams.contamination X2), ?_, h.symm⟩
        have h1 : X2.length = X1.length := by
          simpa using allSome_length hX2
        have h2 : X1.length = recs.length := by
          simpa using fitTransform_length hX1
        simp [h1, h2]

theorem classifyScores_getElem (recs : List LogRecord) (scores : List ℚ) (i : ℕ)
    (hi : i < (classifyScores recs scores).length) (h1 : i < recs.length)
    (h2 : i < scores.length) :
    (classifyScores recs scores).get ⟨i, hi⟩ =
      ⟨recs.get ⟨i, h1⟩, scores.get ⟨i, h2⟩,
        decide (scores.get ⟨i, h2⟩ < quantileLinear (5 / 100) scores)⟩ := by
  simp [classifyScores, List.get_eq_getElem, List.getElem_zipWith]

theorem width_map_featureRow (recs : List LogRecord) (h0 : recs ≠ []) :
    ((recs.map featureRow).headD []).length = 5 := by
  cases recs with
  | nil => exact absurd rfl h0
  | cons r rs => rfl

theorem scoreRecords_success (O : Oracle) (e : ℕ) (recs : List LogRecord)
    (h0 : recs ≠ [])
    (h1 : ∀ r ∈ recs, (O.toDatetime r.timestamp).isSome)
    (h2 : ∀ r ∈ recs, (levelScore r.level).isSome) :
    ∃ out, scoreRecords O e recs = .ok out ∧ out.length = recs.length ∧
      ∀ (i : ℕ) (hi : i < out.length) (hi2 : i < recs.length),
        (out.get ⟨i, hi⟩).base = recs.get ⟨i, hi2⟩ := by
  obtain ⟨ts, hts, _⟩ :=
    allSome_isSome (l := recs.map fun r => O.toDatetime r.timestamp)
      (by
        intro x hx
        obtain ⟨r, hr, rfl⟩ := List.mem_map.mp hx
        exact h1 r hr)
  have hXne : recs.map featureRow ≠ [] := by simpa using h0
  have hw := width_map_featureRow recs h0
  have hft := fitTransform_ok O.sqrtFn (recs.map featureRow) hXne
  have hentries : ∀ y ∈ ((recs.map featureRow).map
      (transformRow O.sqrtFn (recs.map featureRow)
        ((recs.map featureRow).headD []).length)).map allSome, y.isSome := by
    intro y hy
    obtain ⟨row, hrow, rfl⟩ := List.mem_map.mp hy
    obtain ⟨fr, hfr, rfl⟩ := List.mem_map.mp hrow
    obtain ⟨r, hr, rfl⟩ := List.mem_map.mp hfr
    have hall : ∀ x ∈ transformRow O.sqrtFn (recs.map featureRow)
        ((recs.map featureRow).headD []).length (featureRow r), x.isSome := by
      intro x hx
      obtain ⟨j, hj, rfl⟩ := List.mem_map.mp hx
      have hj5 : j < 5 := hw ▸ List.mem_range.mp hj
      obtain ⟨v, hv⟩ :=
        Option.isSome_iff_exists.mp (featureRow_getD_isSome r (h2 r hr) j hj5)
      rw [hv]
      rfl
    obtain ⟨m, hm, _⟩ := allSome_isSome hall
    rw [hm]
    rfl
  obtain ⟨X2, hX2, hX2len⟩ := allSome_isSome hentries
  have hX2' : toFinite ((recs.map featureRow).map
      (transformRow O.sqrtFn (recs.map featureRow)
        ((recs.map featureRow).headD []).length)) = some X2 := hX2
  have hscoreslen : (X2.map (O.fit (modelParams.random_state.getD e)
      modelParams.n_estimators modelParams.contamination X2)).length = recs.length := by
    simp only [List.length_map]
    simpa using hX2len
  refine ⟨classifyScores recs (X2.map (O.fit (modelParams.random_state.getD e)
    modelParams.n_estimators modelParams.contamination X2)), ?_, ?_, ?_⟩
  · simp only [scoreRecords, hts, hft, hX2']
  · exact classifyScores_length _ _ hscoreslen
  · intro i hi hi2
    rw [classifyScores_getElem _ _ i hi hi2 (by rw [hscoreslen]; exact hi2)]

theorem dropWhile_eq_self_of_headD {p : Char → Bool} {s : List Char}
    (h : p (s.headD ' ') = false ∨ s = []) : s.dropWhile p = s := by
  cases s with
  | nil => rfl
  | cons c t =>
    rcases h with h | h
    · simp only [List.headD] at h
      simp [List.dropWhile_cons, h]
    · cases h

theorem trimRight_eq_self {s : List Char}
    (h : isPyWs (s.getLastD ' ') = false) : trimRight s = s := by
  unfold trimRight
  rw [dropWhile_eq_self_of_headD, List.reverse_reverse]
  left
  rw [List.headD_eq_head?, List.head?_reverse, ← List.getLastD_eq_getLast?]
  exact h

theorem pyStrip_eq_self {s : List Char}
    (hl : isPyWs (s.headD ' ') = false) (hr : isPyWs (s.getLastD ' ') = false) :
    pyStrip s = s := by
  unfold pyStrip trimLeft
  rw [trimRight_eq_self hr, dropWhile_eq_self_of_headD (Or.inl hl)]

theorem splitOnce_append {d : List Char} (r : List Char) (h : ' ' ∉ d) :
    splitOnce ' ' (d ++ ' ' :: r) = some (d, r) := by
  induction d with
  | nil => rfl
  | cons c t ih =>
    have hc : ¬ c = ' ' := fun hc => h (by simp [hc])
    have ih2 := ih (fun hm => h (by simp [hm]))
    rw [List.cons_append]
    unfold splitOnce
    rw [if_neg hc, ih2]
    rfl

theorem pySplit_mkLine (d t l m : List Char)
    (hd : ' ' ∉ d) (ht : ' ' ∉ t) (hl : ' ' ∉ l) :
    pySplit ' ' 3 (mkLine d t l m) = [d, t, l, m] := by
  unfold mkLine pySplit
  rw [splitOnce_append _ hd]
  simp only
  unfold pySplit
  rw [splitOnce_append _ ht]
  simp only
  unfold pySplit
  rw [splitOnce_append _ hl]
  rfl

theorem getLastD_append_right {A m : List Char} (h : m ≠ []) :
    (A ++ m).getLastD ' ' = m.getLastD ' ' := by
  rw [List.getLastD_eq_getLast?, List.getLastD_eq_getLast?, List.getLast?_append]
  cases m with
  | nil => exact absurd rfl h
  | cons c t => simp [List.getLast?]

theorem noSpace_of_noWs {s : List Char} (h : ∀ c ∈ s, isPyWs c = false) : ' ' ∉ s := by
  intro hm
  have := h ' ' hm
  simp [isPyWs] at this

theorem parseLine_mkLine (d t l m : List Char)
    (hd0 : d ≠ []) (hm0 : m ≠ [])
    (hd : ∀ c ∈ d, isPyWs c = false) (ht : ∀ c ∈ t, isPyWs c = false)
    (hl : ∀ c ∈ l, isPyWs c = false)
    (_hmh : isPyWs (m.headD ' ') = false) (hmt : isPyWs (m.getLastD ' ') = false) :
    parseLine (mkLine d t l m) = some ⟨d ++ ' ' :: t, l, m⟩ := by
  have hhead : isPyWs ((mkLine d t l m).headD ' ') = false := by
    cases d with
    | nil => exact absurd rfl hd0
    | cons c dt => exact hd c (by simp)
  have hA : mkLine d t l m = (d ++ ' ' :: (t ++ ' ' :: (l ++ [' ']))) ++ m := by
    simp [mkLine]
  have hlast : isPyWs ((mkLine d t l m).getLastD ' ') = false := by
    rw [hA, getLastD_append_right hm0]
    exact hmt
  unfold parseLine
  rw [pyStrip_eq_self hhead hlast,
    pySplit_mkLine d t l m (noSpace_of_noWs hd) (noSpace_of_noWs ht) (noSpace_of_noWs hl)]
  simp

theorem containsSub_iff (n : List Char) : ∀ h : List Char,
    containsSub n h = true ↔ n <:+: h := by
  intro h
  induction h with
  | nil =>
    simp only [containsSub, List.isEmpty_iff, List.infix_nil]
  | cons c t ih =>
    simp only [containsSub, Bool.or_eq_true, ih, List.infix_cons_iff,
      List.isPrefixOf_iff_prefix]

theorem someVals_const {c : ℚ} : ∀ {col : List (Option ℚ)},
    (∀ x ∈ col, x = some c) → someVals col = List.replicate col.length c := by
  intro col
  induction col with
  | nil => intro _; rfl
  | cons x t ih =>
    intro h
    have hx : x = some c := h x (by simp)
    subst hx
    simp only [someVals, List.filterMap_cons] at ih ⊢
    rw [ih (fun y hy => h y (by simp [hy]))]
    simp [List.replicate]

theorem nanmean_const {c : ℚ} {col : List (Option ℚ)} (h0 : col ≠ [])
    (h : ∀ x ∈ col, x = some c) : nanmean col = c := by
  unfold nanmean
  rw [someVals_const h]
  have hn : (col.length : ℚ) ≠ 0 := by
    simpa using h0
  simp [List.sum_replicate, nsmul_eq_mul]
  field_simp

theorem nanvar_const {c : ℚ} {col : List (Option ℚ)} (h0 : col ≠ [])
    (h : ∀ x ∈ col, x = some c) : nanvar col = 0 := by
  unfold nanvar
  rw [someVals_const h, nanmean_const h0 h]
  simp [List.map_replicate, List.sum_replicate]

theorem scaleOf_const {sq : ℚ → ℚ} {c : ℚ} {col : List (Option ℚ)} (h0 : col ≠ [])
    (h : ∀ x ∈ col, x = some c) : scaleOf sq (nanvar col) = 1 := by
  rw [nanvar_const h0 h]
  rfl

/-! ## The claims -/

/-- **C1.** For every batch of scored records, the classification threshold is
the 5th percentile (`quantile(0.05)`, linear interpolation) of the batch's
anomaly scores, and a record is classified anomalous if and only if its score
is strictly less than that threshold; a record whose score equals the
threshold is classified normal. -/
theorem c1_threshold_strictly_below (O : Oracle) (e : ℕ) (recs : List LogRecord)
    (out : List ScoredRecord) (h : scoreRecords O e recs = .ok out)
    (i : ℕ) (hi : i < out.length) :
    ((out.get ⟨i, hi⟩).isAnomaly = true ↔
      (out.get ⟨i, hi⟩).score < quantileLinear (5 / 100) (out.map ScoredRecord.score))
    ∧ ((out.get ⟨i, hi⟩).score = quantileLinear (5 / 100) (out.map ScoredRecord.score) →
      (out.get ⟨i, hi⟩).isAnomaly = false) := by
  obtain ⟨scores, hlen, rfl⟩ := scoreRecords_ok_shape h
  have hi2 : i < recs.length := by
    rw [classifyScores_length recs scores hlen] at hi
    exact hi
  have hi3 : i < scores.length := by omega
  rw [classifyScores_map_score recs scores (le_of_eq hlen),
    classifyScores_getElem recs scores i hi hi2 hi3]
  constructor
  · simp
  · intro hEq
    have hEq2 : scores[i] = quantileLinear (5 / 100) scores := hEq
    simp [hEq2]

/-- **C2.** Two runs of the pipeline on the identical batch give identical
scores and classifications whatever the ambient randomness, because the seed
is pinned: the model is constructed with `n_estimators = 150`,
`contamination = 0.05` and `random_state = 42`. -/
theorem c2_deterministic_and_hyperparameters :
    (∀ (O : Oracle) (e1 e2 : ℕ) (lines : List (List Char)),
      analyze_logs O e1 lines = analyze_logs O e2 lines)
    ∧ modelParams.n_estimators = 150 ∧ modelParams.contamination = 5 / 100
    ∧ modelParams.random_state = some 42 :=
  ⟨fun _ _ _ _ => rfl, rfl, rfl, rfl⟩

/-- **C5.** When zero valid LogRecords remain after parsing, the run fails
with the empty-input condition (the scaler's zero-samples check), for every
oracle — in particular the model fit is never consulted — and no ScoredRecord
sequence is produced. -/
theorem c5_empty_input (O : Oracle) (e : ℕ) (lines : List (List Char))
    (h : parseLogs lines = []) :
    analyze_logs O e lines = .error .emptyInput := by
  unfold analyze_logs
  rw [h]
  rfl

/-- **C3.** The feature vector of every record has exactly the five fixed
dimensions `(level_score, message_length, contains_error, contains_fail,
contains_timeout)`; `level_score` maps INFO/WARNING/ERROR/CRITICAL to 1..4
and is missing for any other level; `message_length` is the character count
of the message; and each keyword indicator is 1 exactly when the keyword
occurs as a case-insensitive substring of the message, 0 otherwise. -/
theorem c3_feature_vector (r : LogRecord) :
    (featureRow r).length = 5
    ∧ (featureRow r).getD 0 none = levelScore r.level
    ∧ (levelScore "INFO".toList = some 1 ∧ levelScore "WARNING".toList = some 2
       ∧ levelScore "ERROR".toList = some 3 ∧ levelScore "CRITICAL".toList = some 4)
    ∧ (∀ lv : List Char, lv ≠ "INFO".toList → lv ≠ "WARNING".toList →
        lv ≠ "ERROR".toList → lv ≠ "CRITICAL".toList → levelScore lv = none)
    ∧ (featureRow r).getD 1 none = some ((r.message.length : ℚ))
    ∧ (∀ j : ℕ, j < 3 →
        (featureRow r).getD (2 + j) none =
          some (if strContainsCI (keywords.getD j []) r.message then 1 else 0))
    ∧ (∀ kw s : List Char, strContainsCI kw s = true ↔ lowerList kw <:+: lowerList s) := by
  refine ⟨rfl, rfl, ⟨rfl, rfl, rfl, rfl⟩, ?_, rfl, ?_, ?_⟩
  · intro lv h1 h2 h3 h4
    have b1 : (lv == "INFO".toList) = false := by
      rw [beq_eq_false_iff_ne]; exact h1
    have b2 : (lv == "WARNING".toList) = false := by
      rw [beq_eq_false_iff_ne]; exact h2
    have b3 : (lv == "ERROR".toList) = false := by
      rw [beq_eq_false_iff_ne]; exact h3
    have b4 : (lv == "CRITICAL".toList) = false := by
      rw [beq_eq_false_iff_ne]; exact h4
    simp only [levelScore, level_mapping, List.lookup, b1, b2, b3, b4]
  · intro j hj
    interval_cases j
    · rfl
    · rfl
    · rfl
  · intro kw s
    exact containsSub_iff (lowerList kw) (lowerList s)

/-- **C4.** Normalization standard-scores each feature against the batch mean
and deviation; a zero-variance feature column (all entries equal) gets scale 1
rather than 0 — no division by zero — and every entry of that column is
normalized to 0; in particular a batch of a single well-formed record flows
through the whole pipeline and receives a defined classification. -/
theorem c4_zero_variance_safe :
    (∀ (sq : ℚ → ℚ) (X : List (List (Option ℚ))) (j : ℕ) (c : ℚ),
      X ≠ [] → (∀ row ∈ X, row.getD j none = some c) →
      scaleOf sq (nanvar (getCol X j)) = 1
      ∧ ∀ Y, fitTransform sq X = .ok Y → ∀ row ∈ Y, row.getD j none = some 0)
    ∧ (∀ (O : Oracle) (e : ℕ) (r : LogRecord),
        (O.toDatetime r.timestamp).isSome → (levelScore r.level).isSome →
        ∃ out, scoreRecords O e [r] = .ok out ∧ out.length = 1) := by
  constructor
  · intro sq X j c h0 hconst
    have hcol0 : getCol X j ≠ [] := by
      simp [getCol, h0]
    have hcol : ∀ x ∈ getCol X j, x = some c := by
      intro x hx
      obtain ⟨row, hrow, rfl⟩ := List.mem_map.mp hx
      exact hconst row hrow
    refine ⟨scaleOf_const hcol0 hcol, ?_⟩
    intro Y hY row hrow
    rw [fitTransform_ok sq X h0] at hY
    simp only [Except.ok.injEq] at hY
    subst hY
    obtain ⟨orig, horig, rfl⟩ := List.mem_map.mp hrow
    have hjw : j < (X.headD []).length := by
      cases X with
      | nil => exact absurd rfl h0
      | cons r0 rs =>
        by_contra hge
        have hdef := List.getD_eq_default r0 (none : Option ℚ) (by simpa using hge)
        have := hconst r0 (by simp)
        rw [hdef] at this
        exact Option.noConfusion this
    unfold transformRow
    rw [getD_range_map _ _ j hjw, hconst orig horig]
    simp only [Option.map_some', Option.some.injEq]
    rw [nanmean_const hcol0 hcol, scaleOf_const hcol0 hcol]
    simp
  · intro O e r hts hlev
    obtain ⟨out, hout, hlen, _⟩ :=
      scoreRecords_success O e [r] (by simp)
        (by
          intro x hx
          rw [List.mem_singleton] at hx
          subst hx
          exact hts)
        (by
          intro x hx
          rw [List.mem_singleton] at hx
          subst hx
          exact hlev)
    exact ⟨out, hout, by simpa using hlen⟩

/-- **C6, counterexample.** The line `"2024-09-10  10:21:22 CRITICAL"` (note
the doubled space) cannot be split into 4 whitespace-separated segments — it
has only 3 whitespace-separated tokens — yet the parser produces a LogRecord
for it, because `split(" ", 3)` counts the empty segment between the two
adjacent spaces as a fourth part. -/
theorem c6_counterexample :
    (wsTokens "2024-09-10  10:21:22 CRITICAL".toList).length < 4
    ∧ (parseLine "2024-09-10  10:21:22 CRITICAL".toList).isSome = true := by
  decide

/-- **C6, amended.** For every input line whose stripped text yields fewer
than 4 parts when split on the space character with at most 3 splits (empty
parts counted), the parser produces no LogRecord and raises no error
(`parseLine` is total and returns `none`), and the line's presence changes
neither the count nor the relative order of the records of the surrounding
lines. -/
theorem c6_line_dropped (line : List Char) (pre post : List (List Char))
    (h : (pySplit ' ' 3 (pyStrip line)).length < 4) :
    parseLine line = none
    ∧ parseLogs (pre ++ line :: post) = parseLogs (pre ++ post) := by
  have hnone : parseLine line = none := by
    unfold parseLine
    rw [if_pos h]
  refine ⟨hnone, ?_⟩
  unfold parseLogs
  rw [List.filterMap_append, List.filterMap_append, List.filterMap_cons_none hnone]

/-- **C7, counterexample.** The message `"hi "` has no leading whitespace,
but the line `"2024-09-10 10:00:00 INFO hi "` does not round-trip: `strip()`
removes the trailing space, so the parsed message is `"hi"`, not `"hi "`. -/
theorem c7_counterexample :
    isPyWs ("hi ".toList.headD ' ') = false
    ∧ (parseLine (mkLine "2024-09-10".toList "10:00:00".toList "INFO".toList
        "hi ".toList)).map LogRecord.message = some "hi".toList
    ∧ "hi".toList ≠ "hi ".toList := by
  decide

/-- **C7, amended.** For every line `"<date> <time> <LEVEL> <message>"` built
from whitespace-free nonempty date/time/level tokens and a nonempty message
with no leading and no trailing whitespace, parsing yields a record whose
level and message are identical to the originals (internal whitespace of the
message included). -/
theorem c7_round_trip (d t l m : List Char)
    (hd0 : d ≠ []) (hm0 : m ≠ [])
    (hd : ∀ c ∈ d, isPyWs c = false) (ht : ∀ c ∈ t, isPyWs c = false)
    (hl : ∀ c ∈ l, isPyWs c = false)
    (hmh : isPyWs (m.headD ' ') = false) (hmt : isPyWs (m.getLastD ' ') = false) :
    ∃ r : LogRecord, parseLine (mkLine d t l m) = some r ∧ r.level = l ∧ r.message = m :=
  ⟨⟨d ++ ' ' :: t, l, m⟩, parseLine_mkLine d t l m hd0 hm0 hd ht hl hmh hmt, rfl, rfl⟩

/-- **C8, counterexample.** A batch of one valid LogRecord whose level token
is outside the vocabulary (here `TRACE`) yields no ScoredRecord sequence at
all: the run aborts on the NaN level score, so the scorer does not produce
an output of length N for every batch with N ≥ 1. -/
theorem c8_counterexample :
    ¬ ∃ out : List ScoredRecord,
      scoreRecords oracle0 0
        [⟨"2024-09-10 10:15:23".toList, "TRACE".toList, "ok".toList⟩] = .ok out := by
  have h : scoreRecords oracle0 0
      [⟨"2024-09-10 10:15:23".toList, "TRACE".toList, "ok".toList⟩] =
        .error .nanInput := by
    with_unfolding_all decide
  rintro ⟨out, hout⟩
  rw [h] at hout
  exact Except.noConfusion hout

/-- **C8, amended.** For every batch of N ≥ 1 valid LogRecords whose
timestamps all parse and whose level tokens are all inside the closed
vocabulary, the scorer produces a ScoredRecord sequence of exactly length N,
and the i-th ScoredRecord carries the i-th LogRecord of the batch. -/
theorem c8_length_and_order (O : Oracle) (e : ℕ) (recs : List LogRecord)
    (h0 : recs ≠ [])
    (h1 : ∀ r ∈ recs, (O.toDatetime r.timestamp).isSome)
    (h2 : ∀ r ∈ recs, (levelScore r.level).isSome) :
    ∃ out, scoreRecords O e recs = .ok out ∧ out.length = recs.length ∧
      ∀ (i : ℕ) (hi : i < out.length) (hi2 : i < recs.length),
        (out.get ⟨i, hi⟩).base = recs.get ⟨i, hi2⟩ :=
  scoreRecords_success O e recs h0 h1 h2

/-- **C9.** The scoring stage only adds the score and the classification: for
every successful run, the i-th ScoredRecord's timestamp, level and message
are exactly those of the i-th record produced by the parser. -/
theorem c9_parser_fields_preserved (O : Oracle) (e : ℕ) (lines : List (List Char))
    (out : List ScoredRecord) (h : analyze_logs O e lines = .ok out)
    (i : ℕ) (hi : i < out.length) (hi2 : i < (parseLogs lines).length) :
    (out.get ⟨i, hi⟩).base.timestamp = ((parseLogs lines).get ⟨i, hi2⟩).timestamp
    ∧ (out.get ⟨i, hi⟩).base.level = ((parseLogs lines).get ⟨i, hi2⟩).level
    ∧ (out.get ⟨i, hi⟩).base.message = ((parseLogs lines).get ⟨i, hi2⟩).message := by
  obtain ⟨scores, hlen, rfl⟩ := scoreRecords_ok_shape h
  have hi3 : i < scores.length := by omega
  rw [classifyScores_getElem _ _ i hi hi2 hi3]
  exact ⟨rfl, rfl, rfl⟩

/-- **C10.** A batch that contains a valid LogRecord whose level is outside
{INFO, WARNING, ERROR, CRITICAL} (and whose timestamps all parse) has a
missing `level_score` in the feature matrix handed to the scaler — the
missing value is not imputed and no separate feature error is raised — and
the run aborts with the NaN failure when the model is fitted on the scaled
matrix, producing no ScoredRecord sequence. -/
theorem c10_unmapped_level_aborts (O : Oracle) (e : ℕ) (recs : List LogRecord)
    (r0 : LogRecord) (hmem : r0 ∈ recs) (hlev : levelScore r0.level = none)
    (h1 : ∀ r ∈ recs, (O.toDatetime r.timestamp).isSome) :
    (featureRow r0).getD 0 none = none
    ∧ scoreRecords O e recs = .error .nanInput := by
  have h0 : recs ≠ [] := List.ne_nil_of_mem hmem
  refine ⟨by rw [featureRow_getD_zero, hlev], ?_⟩
  obtain ⟨ts, hts, _⟩ :=
    allSome_isSome (l := recs.map fun r => O.toDatetime r.timestamp)
      (by
        intro x hx
        obtain ⟨r, hr, rfl⟩ := List.mem_map.mp hx
        exact h1 r hr)
  have hXne : recs.map featureRow ≠ [] := by simpa using h0
  have hft := fitTransform_ok O.sqrtFn (recs.map featureRow) hXne
  have hw := width_map_featureRow recs h0
  have hrow0 : allSome (transformRow O.sqrtFn (recs.map featureRow)
      ((recs.map featureRow).headD []).length (featureRow r0)) = none := by
    apply allSome_eq_none
    have h0mem : (0 : ℕ) ∈ List.range ((recs.map featureRow).headD []).length := by
      rw [hw]
      exact List.mem_range.mpr (by omega)
    have hmm := List.mem_map_of_mem (fun j =>
      ((featureRow r0).getD j none).map (fun x =>
        (x - nanmean (getCol (recs.map featureRow) j)) /
          scaleOf O.sqrtFn (nanvar (getCol (recs.map featureRow) j)))) h0mem
    beta_reduce at hmm
    rw [featureRow_getD_zero, hlev] at hmm
    simp only [Option.map_none'] at hmm
    exact hmm
  have htf : toFinite ((recs.map featureRow).map (transformRow O.sqrtFn
      (recs.map featureRow) ((recs.map featureRow).headD []).length)) = none := by
    apply allSome_eq_none
    have hin := List.mem_map_of_mem allSome (List.mem_map_of_mem
      (transformRow O.sqrtFn (recs.map featureRow)
        ((recs.map featureRow).headD []).length)
      (List.mem_map_of_mem featureRow hmem))
    rw [hrow0] at hin
    exact hin
  simp only [scoreRecords, hts, hft, htf]

/-! ## Witnesses -/

/-- Witness for C1 on a concrete one-record batch. -/
theorem c1_threshold_strictly_below_witness :
    ∃ out : List ScoredRecord, scoreRecords oracle0 0 [rec0] = .ok out ∧
      ∃ hi : 0 < out.length,
        ((out.get ⟨0, hi⟩).isAnomaly = true ↔
          (out.get ⟨0, hi⟩).score < quantileLinear (5 / 100) (out.map ScoredRecord.score)) := by
  have h : scoreRecords oracle0 0 [rec0] = .ok [⟨rec0, 0, false⟩] := by
    with_unfolding_all decide
  exact ⟨[⟨rec0, 0, false⟩], h, Nat.one_pos,
    (c1_threshold_strictly_below oracle0 0 [rec0] [⟨rec0, 0, false⟩] h 0 Nat.one_pos).1⟩

/-- Witness for C3: an unmapped level and the first keyword column, concretely. -/
theorem c3_feature_vector_witness :
    levelScore "TRACE".toList = none
    ∧ (featureRow rec0).getD (2 + 0) none =
        some (if strContainsCI (keywords.getD 0 []) rec0.message then 1 else 0) :=
  ⟨(c3_feature_vector rec0).2.2.2.1 "TRACE".toList
      (by decide) (by decide) (by decide) (by decide),
    (c3_feature_vector rec0).2.2.2.2.2.1 0 (by omega)⟩

/-- Witness for C4: a constant column scales to 1, and a singleton batch is
classified. -/
theorem c4_zero_variance_safe_witness :
    scaleOf (fun q => q) (nanvar (getCol [[some 3], [some 3]] 0)) = 1
    ∧ ∃ out, scoreRecords oracle0 0 [rec0] = .ok out ∧ out.length = 1 :=
  ⟨(c4_zero_variance_safe.1 (fun q => q) [[some 3], [some 3]] 0 3 (by decide)
      (by with_unfolding_all decide)).1,
    c4_zero_variance_safe.2 oracle0 0 rec0 (by decide) (by decide)⟩

/-- Witness for C5: a batch whose only line is malformed. -/
theorem c5_empty_input_witness :
    analyze_logs oracle0 0 ["short".toList] = .error .emptyInput :=
  c5_empty_input oracle0 0 ["short".toList] (by decide)

/-- Witness for C6 (amended) on concrete surrounding lines. -/
theorem c6_line_dropped_witness :
    parseLine "too short".toList = none
    ∧ parseLogs (["2024-09-10 10:15:23 INFO ok".toList] ++ "too short".toList ::
        ["2024-09-10 10:16:45 INFO done".toList]) =
      parseLogs (["2024-09-10 10:15:23 INFO ok".toList] ++
        ["2024-09-10 10:16:45 INFO done".toList]) :=
  c6_line_dropped "too short".toList ["2024-09-10 10:15:23 INFO ok".toList]
    ["2024-09-10 10:16:45 INFO done".toList] (by decide)

/-- Witness for C7 (amended) on a message with internal spaces. -/
theorem c7_round_trip_witness :
    ∃ r : LogRecord, parseLine (mkLine "2024-09-10".toList "10:20:15".toList
      "INFO".toList "Processing batch job 001".toList) = some r ∧
      r.level = "INFO".toList ∧ r.message = "Processing batch job 001".toList :=
  c7_round_trip "2024-09-10".toList "10:20:15".toList "INFO".toList
    "Processing batch job 001".toList (by decide) (by decide) (by decide)
    (by decide) (by decide) (by decide) (by decide)

/-- Witness for C8 (amended) on a concrete two-record batch. -/
theorem c8_length_and_order_witness :
    ∃ out, scoreRecords oracle0 0 [rec0,
      ⟨"2024-09-10 10:19:44".toList, "ERROR".toList, "Failed to connect".toList⟩] = .ok out
    ∧ out.length = 2 := by
  obtain ⟨out, h1, h2, _⟩ := c8_length_and_order oracle0 0 [rec0,
    ⟨"2024-09-10 10:19:44".toList, "ERROR".toList, "Failed to connect".toList⟩]
    (by decide) (by decide) (by decide)
  exact ⟨out, h1, by rw [h2]; rfl⟩

/-- Witness for C9 on a concrete one-line run. -/
theorem c9_parser_fields_preserved_witness :
    ∃ out : List ScoredRecord,
      analyze_logs oracle0 0 ["2024-09-10 10:15:23 INFO ok".toList] = .ok out ∧
      ∃ hi : 0 < out.length,
        ∃ hi2 : 0 < (parseLogs ["2024-09-10 10:15:23 INFO ok".toList]).length,
          (out.get ⟨0, hi⟩).base.message =
            ((parseLogs ["2024-09-10 10:15:23 INFO ok".toList]).get ⟨0, hi2⟩).message := by
  have h : analyze_logs oracle0 0 ["2024-09-10 10:15:23 INFO ok".toList] =
      .ok [⟨⟨"2024-09-10 10:15:23".toList, "INFO".toList, "ok".toList⟩, 0, false⟩] := by
    with_unfolding_all decide
  exact ⟨_, h, Nat.one_pos, by decide,
    (c9_parser_fields_preserved oracle0 0 _ _ h 0 Nat.one_pos (by decide)).2.2⟩

/-- Witness for C10 on a concrete TRACE-level record. -/
theorem c10_unmapped_level_aborts_witness :
    (featureRow ⟨"2024-09-10 10:15:23".toList, "TRACE".toList, "m".toList⟩).getD 0 none = none
    ∧ scoreRecords oracle0 0
        [⟨"2024-09-10 10:15:23".toList, "TRACE".toList, "m".toList⟩] = .error .nanInput :=
  c10_unmapped_level_aborts oracle0 0
    [⟨"2024-09-10 10:15:23".toList, "TRACE".toList, "m".toList⟩]
    ⟨"2024-09-10 10:15:23".toList, "TRACE".toList, "m".toList⟩
    (by decide) (by decide) (by decide)
